import Mathlib

/-!
Shallow embedding of the KLEE numerical-error-analysis extension:
`lib/Core/SymbolicError.cpp` (error propagation through instructions and
the error store) and `lib/Solver/Z3ErrorSolver.cpp` (the Z3-based
satisfiability and optimization queries and their response decoding).
-/

namespace KleeError

/-- A KLEE `Array` object.  Arrays are identified by object identity in the
C++ code (`const Array *` pointers); we model identity with a numeric id
alongside the name.  The error arrays created by `SymbolicError::getError`
carry `Expr::Int8` range, so reads from them have width 8. -/
structure Arr where
  id : Nat
  name : String
deriving DecidableEq, Repr

/-- Structural model of the KLEE expression nodes that
`SymbolicError.cpp` manipulates: `ConstantExpr` (value and bit width),
`ReadExpr` (root array of its update list and index), `ConcatExpr`,
`SExtExpr`, `ZExtExpr`, `AddExpr`, `MulExpr` and `UDivExpr`.  The
`XExpr::create` calls of the source are modelled as the corresponding
constructors (the expression classes are declared elsewhere in the
repository; the claims are about which composite expression is built). -/
inductive Expr where
  | const (val : Nat) (width : Nat)
  | read (arr : Arr) (index : Expr)
  | concat (left right : Expr)
  | sext (kid : Expr) (width : Nat)
  | zext (kid : Expr) (width : Nat)
  | add (left right : Expr)
  | mul (left right : Expr)
  | udiv (left right : Expr)
deriving DecidableEq, Repr

/-- `Expr::getWidth`.  A `ReadExpr` over an `Int8`-ranged array has width
8; arithmetic nodes take the width of their operands. -/
def Expr.width : Expr → Nat
  | .const _ w => w
  | .read _ _ => 8
  | .concat l r => l.width + r.width
  | .sext _ w => w
  | .zext _ w => w
  | .add l _ => l.width
  | .mul l _ => l.width
  | .udiv l _ => l.width

/-- `llvm::dyn_cast<ConstantExpr>` succeeds exactly on constants. -/
def Expr.isConst : Expr → Bool
  | .const _ _ => true
  | _ => false

/-- The `Add`-case guard of `SymbolicError::propagateError`:
`dyn_cast<ConstantExpr>(result)` succeeds and `ce->getZExtValue()` is
nonzero. -/
def Expr.isNonzeroConst : Expr → Bool
  | .const v _ => v ≠ 0
  | _ => false

/-- Association-list lookup, modelling `std::map::find` /
membership-tested `operator[]` access. -/
def assocLookup {α β : Type} [DecidableEq α] : List (α × β) → α → Option β
  | [], _ => none
  | (k, v) :: rest, key => if k = key then some v else assocLookup rest key

/-- The mutable state of a `SymbolicError` object:
`valueErrorMap : llvm::Value* → ref<Expr>` (values modelled by ids),
`arrayErrorArrayMap : const Array* → const Array*`,
`storedError : uintptr_t → ref<Expr>`, and the `ArrayCache` used by
`CreateArray`, modelled as a fresh-id counter. -/
structure SymErrState where
  valueErrorMap : List (Nat × Expr)
  arrayErrorArrayMap : List (Arr × Arr)
  storedError : List (Nat × Expr)
  arrayCounter : Nat
deriving DecidableEq, Repr

def emptyState : SymErrState :=
  { valueErrorMap := [], arrayErrorArrayMap := [], storedError := [],
    arrayCounter := 0 }

/-- `valueErrorMap[v] = e` (map assignment overwrites; front insertion
with first-match lookup has the same observable behaviour). -/
def setValueError (st : SymErrState) (v : Nat) (e : Expr) : SymErrState :=
  { st with valueErrorMap := (v, e) :: st.valueErrorMap }

/-- The shared body of the `ConcatExpr` and `ReadExpr` branches of
`SymbolicError::getError`: look the root array up in
`arrayErrorArrayMap`; on a miss create an error array named
`"_unspecified_error_" + name` through the `ArrayCache` (fresh id from
the counter) and record the association; either way return
`ReadExpr::create(UpdateList(errorArray, 0), ConstantExpr::alloc(0, Int8))`. -/
def resolveErrorArray (arr : Arr) (st : SymErrState) : Expr × SymErrState :=
  match assocLookup st.arrayErrorArrayMap arr with
  | some errorArray => (.read errorArray (.const 0 8), st)
  | none =>
      let newErrorArray : Arr :=
        ⟨st.arrayCounter, "_unspecified_error_" ++ arr.name⟩
      (.read newErrorArray (.const 0 8),
       { st with
           arrayErrorArrayMap := (arr, newErrorArray) :: st.arrayErrorArrayMap,
           arrayCounter := st.arrayCounter + 1 })

/-- `SymbolicError::getError` with `value = nullptr` (the form taken by
its recursive calls): the `valueErrorMap` consultation and write-back
are skipped.  `none` models a crash/assertion failure: a `ConcatExpr`
whose left kid is not a `ReadExpr` (the unchecked `dyn_cast` result is
dereferenced), or the `assert(!"malformed expression")` on any
unhandled non-constant expression kind. -/
def getErrorCore (valueExpr : Expr) (st : SymErrState) :
    Option (Expr × SymErrState) :=
  match valueExpr with
  | .concat l _ =>
      match l with
      | .read arr _ => some (resolveErrorArray arr st)
      | _ => none
  | .read arr _ => some (resolveErrorArray arr st)
  | .sext kid _ => getErrorCore kid st
  | .add l r => do
      let (lhsError, st1) ← getErrorCore l st
      let (rhsError, st2) ← getErrorCore r st1
      some (.add lhsError rhsError, st2)
  | .const _ _ => some (.const 0 8, st)
  | _ => none

/-- `SymbolicError::getError(executor, valueExpr, value)`: with a
non-null `value`, a non-null `valueErrorMap` entry is returned directly;
otherwise the expression is analysed and the result written back under
`value`. -/
def getError (valueExpr : Expr) (value : Option Nat) (st : SymErrState) :
    Option (Expr × SymErrState) :=
  match value with
  | some v =>
      match assocLookup st.valueErrorMap v with
      | some errorAmount => some (errorAmount, st)
      | none => do
          let (ret, st1) ← getErrorCore valueExpr st
          some (ret, setValueError st1 v ret)
  | none => getErrorCore valueExpr st

/-- The relevant LLVM opcodes dispatched by
`SymbolicError::propagateError`. -/
inductive Opcode where
  | add
  | sub
  | mul
  | udiv
  | sdiv
  | other
deriving DecidableEq, Repr

/-- An LLVM instruction as `propagateError` consumes it: its identity
(as a `valueErrorMap` key), opcode and operand `llvm::Value` ids. -/
structure Instruction where
  id : Nat
  opcode : Opcode
  operands : List Nat
deriving DecidableEq, Repr

/-- The width-adjustment performed on each operand error in the
arithmetic cases: `if (err->getWidth() != arg->getWidth())
err = ZExtExpr::create(err, arg->getWidth())`. -/
def widthAdjust (err : Expr) (w : Nat) : Expr :=
  if err.width ≠ w then .zext err w else err

/-- `SymbolicError::propagateError(executor, instr, result, arguments)`.
`none` models a crash (missing operands/arguments, or a failing
`getError`).  The `Add` case divides the weighted sum by the result only
when the result is a nonzero constant and otherwise stores the `result`
variable as it then stands; the `Sub` case always divides; the
`Mul`/`UDiv`/`SDiv` cases store the width-adjusted sum of the operand
errors; the default case copies the first operand error found in
`valueErrorMap`, defaulting to the `Int8` zero. -/
def propagateError (instr : Instruction) (result : Expr)
    (arguments : List Expr) (st : SymErrState) :
    Option (Expr × SymErrState) :=
  match instr.opcode with
  | .add =>
      match instr.operands, arguments with
      | lOp :: rOp :: _, arg0 :: arg1 :: _ => do
          let (lError, st1) ← getError arg0 (some lOp) st
          let (rError, st2) ← getError arg1 (some rOp) st1
          let extendedLeft := widthAdjust lError arg0.width
          let extendedRight := widthAdjust rError arg1.width
          let errorLeft := Expr.mul extendedLeft arg0
          let errorRight := Expr.mul extendedRight arg1
          let resultError := Expr.add errorLeft errorRight
          let result' :=
            if result.isNonzeroConst then Expr.udiv resultError result
            else result
          some (result', setValueError st2 instr.id result')
      | _, _ => none
  | .sub =>
      match instr.operands, arguments with
      | lOp :: rOp :: _, arg0 :: arg1 :: _ => do
          let (lError, st1) ← getError arg0 (some lOp) st
          let (rError, st2) ← getError arg1 (some rOp) st1
          let extendedLeft := widthAdjust lError arg0.width
          let extendedRight := widthAdjust rError arg1.width
          let errorLeft := Expr.mul extendedLeft arg0
          let errorRight := Expr.mul extendedRight arg1
          let resultError := Expr.add errorLeft errorRight
          let stored := Expr.udiv resultError result
          some (stored, setValueError st2 instr.id stored)
      | _, _ => none
  | .mul =>
      match instr.operands, arguments with
      | lOp :: rOp :: _, arg0 :: arg1 :: _ => do
          let (lError, st1) ← getError arg0 (some lOp) st
          let (rError, st2) ← getError arg1 (some rOp) st1
          let stored :=
            Expr.add (widthAdjust lError arg0.width)
              (widthAdjust rError arg1.width)
          some (stored, setValueError st2 instr.id stored)
      | _, _ => none
  | .udiv =>
      match instr.operands, arguments with
      | lOp :: rOp :: _, arg0 :: arg1 :: _ => do
          let (lError, st1) ← getError arg0 (some lOp) st
          let (rError, st2) ← getError arg1 (some rOp) st1
          let stored :=
            Expr.add (widthAdjust lError arg0.width)
              (widthAdjust rError arg1.width)
          some (stored, setValueError st2 instr.id stored)
      | _, _ => none
  | .sdiv =>
      match instr.operands, arguments with
      | lOp :: rOp :: _, arg0 :: arg1 :: _ => do
          let (lError, st1) ← getError arg0 (some lOp) st
          let (rError, st2) ← getError arg1 (some rOp) st1
          let stored :=
            Expr.add (widthAdjust lError arg0.width)
              (widthAdjust rError arg1.width)
          some (stored, setValueError st2 instr.id stored)
      | _, _ => none
  | .other =>
      let error :=
        (instr.operands.findSome?
          (fun v => assocLookup st.valueErrorMap v)).getD (.const 0 8)
      some (error, setValueError st instr.id error)

/-- `SymbolicError::executeStore(address, error)`: a null `error` makes
the call a no-op before the address is examined; a constant address
stores the error under `getZExtValue()`; a non-constant address fails
the `assert(!"non-constant address")` (modelled as `none`). -/
def executeStore (address : Expr) (error : Option Expr)
    (st : SymErrState) : Option SymErrState :=
  match error with
  | none => some st
  | some e =>
      match address with
      | .const v _ => some { st with storedError := (v, e) :: st.storedError }
      | _ => none

/-- `SymbolicError::executeLoad(value, address)`: a constant address
yields the stored error or the `Int8` zero constant and records it in
`valueErrorMap[value]`; a non-constant address fails the
`assert(!"non-constant address")` (modelled as `none`). -/
def executeLoad (value : Nat) (address : Expr) (st : SymErrState) :
    Option (Expr × SymErrState) :=
  match address with
  | .const v _ =>
      let error :=
        match assocLookup st.storedError v with
        | some e => e
        | none => Expr.const 0 8
      some (error, setValueError st value error)
  | _ => none

/-- The error array created on a miss in
`SymbolicError::getError`: `errorArrayCache.CreateArray
("_unspecified_error_" + name, Expr::Int8)`, with a fresh id drawn from
the cache counter. -/
def unspecifiedErrorArray (arr : Arr) (st : SymErrState) : Arr :=
  ⟨st.arrayCounter, "_unspecified_error_" ++ arr.name⟩

/-- Recording `arrayErrorArrayMap[arr] = newErrorArray` and the cache
allocation. -/
def recordErrorArray (arr : Arr) (st : SymErrState) : SymErrState :=
  { st with
      arrayErrorArrayMap :=
        (arr, unspecifiedErrorArray arr st) :: st.arrayErrorArrayMap,
      arrayCounter := st.arrayCounter + 1 }

/-- The spec's width rule: an operand's error expression is
zero-extended to the operand's bit width when narrower. -/
def zextIfNarrower (err : Expr) (w : Nat) : Expr :=
  if err.width < w then .zext err w else err

/-- The spec's unnormalized weighted error sum for `Add`/`Sub`:
`lhsError·lhsOperand + rhsError·rhsOperand` after width adjustment of
each error to its operand's width. -/
def weightedErrorSum (lError rError arg0 arg1 : Expr) : Expr :=
  .add (.mul (widthAdjust lError arg0.width) arg0)
       (.mul (widthAdjust rError arg1.width) arg1)

/-! ## The Z3 error solver (`Z3ErrorSolver.cpp`) -/

/-- A Z3 AST as the solver sessions use it: `builder->construct(e)` for
a KLEE expression, `Z3_mk_not` of a constructed expression, or
`builder->buildReal(name)` for an array's value read as a real. -/
inductive ZAst where
  | ofExpr (e : Expr)
  | notOf (e : Expr)
  | realVar (name : String)
deriving DecidableEq, Repr

/-- The assertions `Z3ErrorSolverImpl::internalRunSolver` makes before
`Z3_solver_check`: every query constraint, then the negation of the
query expression (the validity-to-satisfiability encoding). -/
def internalRunSolverSession (constraints : List Expr) (queryExpr : Expr) :
    List ZAst :=
  constraints.map ZAst.ofExpr ++ [ZAst.notOf queryExpr]

/-- An optimizer session: the asserted formulas and the maximize
objectives, in order. -/
structure OptimizeSession where
  assertions : List ZAst
  objectives : List ZAst
deriving DecidableEq, Repr

/-- What `Z3ErrorSolverImpl::internalRunOptimize` feeds the optimizer
before `Z3_optimize_check`: it asserts every query constraint, then
adds `Z3_optimize_maximize` over `buildReal(array->name)` for each
requested array.  The query expression is not constructed or asserted
anywhere in this function. -/
def internalRunOptimizeSession (constraints : List Expr) (queryExpr : Expr)
    (objects : List Arr) : OptimizeSession :=
  { assertions := constraints.map ZAst.ofExpr,
    objectives := objects.map fun a => ZAst.realVar a.name }

/-! ## Numeral decoding and response handling -/

/-- Floor of the base-2 logarithm, by fuel-bounded halving (exact for
the first argument equal to the second; `natLog2 0 = 0`). -/
def natLog2Aux : Nat → Nat → Nat
  | 0, _ => 0
  | fuel + 1, n => if 2 ≤ n then natLog2Aux fuel (n / 2) + 1 else 0

def natLog2 (n : Nat) : Nat := natLog2Aux n n

/-- Least `k` with `n * 2 ^ k ≥ d`, fuel-bounded (for `0 < n`). -/
def leastPowAux (n d : Nat) : Nat → Nat
  | 0 => 0
  | fuel + 1 => if d ≤ n then 0 else leastPowAux (2 * n) d fuel + 1

/-- `⌊log₂ (n / d)⌋` for positive naturals `n`, `d`. -/
def floorLog2Rat (n d : Nat) : Int :=
  if d ≤ n then (natLog2 (n / d) : Int)
  else -(leastPowAux n d (natLog2 d + 2) : Int)

/-- The integer mantissa `round(n / d · 2 ^ (52 - e))` with
round-to-nearest, ties-to-even for `e = ⌊log₂ (n / d)⌋`; the result
lies in `[2^52, 2^53]`. -/
def roundMantissa (n d : Nat) (e : Int) : Nat :=
  let num := if e ≤ 52 then n * 2 ^ (52 - e).toNat else n
  let den := if e ≤ 52 then d else d * 2 ^ (e - 52).toNat
  let m0 := num / den
  let r := num % den
  if den < 2 * r then m0 + 1
  else if 2 * r = den then m0 + m0 % 2
  else m0

/-- The IEEE-754 binary64 bit pattern of the C expression
`((double)num) / ((double)den)`: for 32-bit machine integers the two
conversions are exact, so this is the correctly-rounded
(round-to-nearest, ties-to-even) double closest to the rational
`num / den`.  Inputs in the normal range are assumed (always the case
for nonzero ratios of 32-bit integers); `num = 0` gives `+0.0`. -/
def ratToDoubleBits (num den : Int) : Nat :=
  if num = 0 then 0
  else
    let sign : Nat := if num * den < 0 then 1 else 0
    let n := num.natAbs
    let d := den.natAbs
    let e := floorLog2Rat n d
    let m := roundMantissa n d e
    let m' := if m = 2 ^ 53 then 2 ^ 52 else m
    let e' := if m = 2 ^ 53 then e + 1 else e
    sign * 2 ^ 63 + (e' + 1023).toNat * 2 ^ 52 + (m' - 2 ^ 52)

/-- The little-endian 8-byte serialization of a 64-bit pattern, as the
`memcpy`-then-shift loop of `handleSolverResponse` produces it. -/
def bytesLE8 (x : Nat) : List Nat :=
  (List.range 8).map fun i => x / 256 ^ i % 256

/-- The byte loop of the integer path of `handleSolverResponse`:
`data.push_back(v & 255); v = v >> 8` eight times on a C `int`
(arithmetic shift, hence floor division). -/
def intBytesLE8 (v : Int) : List Nat :=
  (List.range 8).map fun i => ((Int.fdiv v (2 ^ (8 * i))).emod 256).toNat

/-- `Z3_get_numeral_int` succeeds exactly when the value fits a 32-bit
machine `int`. -/
def fitsMachineInt (v : Int) : Bool :=
  decide (-(2 ^ 31) ≤ v ∧ v < 2 ^ 31)

/-- A Z3 numeral AST: an integer, or a non-integer rational with the
numerator and (positive) denominator `Z3_get_numerator` /
`Z3_get_denominator` expose. -/
inductive Numeral where
  | int (v : Int)
  | rat (num den : Int)
deriving DecidableEq, Repr

/-- The per-array byte-vector decoding of the `Z3_L_TRUE` branch of
`Z3ErrorSolverImpl::handleSolverResponse`: if `Z3_get_numeral_int`
succeeds the eight bytes of the raw machine integer are pushed
little-endian; otherwise the numerator and denominator are extracted
(an assertion failure — `none` — if either does not fit) and the bytes
of the double quotient are pushed little-endian. -/
def decodeNumeral : Numeral → Option (List Nat)
  | .int v =>
      if fitsMachineInt v then some (intBytesLE8 v)
      else none
  | .rat num den =>
      if fitsMachineInt num ∧ fitsMachineInt den then
        some (bytesLE8 (ratToDoubleBits num den))
      else none

/-- The upper-bound triple `Z3_optimize_get_upper_as_vector` reports
for an objective: infinity coefficient, bound value, epsilon
coefficient. -/
structure UpperBoundTriple where
  infinityCoefficient : Numeral
  upperBound : Numeral
  epsilonCoefficient : Numeral
deriving DecidableEq, Repr

/-- The per-objective decoding of the `Z3_L_TRUE` branch of
`Z3ErrorSolverImpl::handleOptimizeResponse`: only the bound value of
the triple is decoded (`result = upperBoundValue` converts the machine
integer to a double exactly; otherwise the numerator/denominator
quotient is taken); the infinity and epsilon coefficients are fetched
but not used.  The result is the bit pattern of the double pushed into
`values`. -/
def decodeUpperBound (t : UpperBoundTriple) : Option Nat :=
  match t.upperBound with
  | .int v => if fitsMachineInt v then some (ratToDoubleBits v 1) else none
  | .rat num den =>
      if fitsMachineInt num ∧ fitsMachineInt den then
        some (ratToDoubleBits num den)
      else none

/-- A Z3 check outcome (`Z3_lbool`), with the
`Z3_solver_get_reason_unknown` string attached to the undefined case. -/
inductive LBool where
  | lTrue
  | lFalse
  | lUndetermined (reason : String)
deriving DecidableEq, Repr

/-- The solver run statuses the two response handlers can return. -/
inductive SolverRunStatus where
  | solvable
  | unsolvable
  | timeout
  | failure
deriving DecidableEq, Repr

/-- `Z3ErrorSolverImpl::handleSolverResponse`, given the evaluated model
numeral for each requested array.  The result carries the run status,
the final `hasSolution` flag (`none` when the undefined branches leave
it unassigned) and the decoded byte vectors; `none` models the
`abort()` on an unexpected unknown reason (or an assertion failure
while decoding). -/
def handleSolverResponse (satisfiable : LBool) (modelVals : List Numeral) :
    Option (SolverRunStatus × Option Bool × List (List Nat)) :=
  match satisfiable with
  | .lTrue => do
      let vals ← modelVals.mapM decodeNumeral
      some (.solvable, some true, vals)
  | .lFalse => some (.unsolvable, some false, [])
  | .lUndetermined reason =>
      if reason = "timeout" ∨ reason = "canceled" then
        some (.timeout, none, [])
      else if reason = "unknown" then some (.failure, none, [])
      else none

/-- `Z3ErrorSolverImpl::handleOptimizeResponse`, given the upper-bound
triple of each objective.  The result carries the run status, the
`hasSolution` flag, the decoded double bit patterns, and the contents
of the `infinity` and `epsilon` output vectors, which the function
never pushes to (the fetched coefficient ASTs are unused). -/
def handleOptimizeResponse (satisfiable : LBool)
    (bounds : List UpperBoundTriple) :
    Option (SolverRunStatus × Option Bool × List Nat × List Bool × List Bool) :=
  match satisfiable with
  | .lTrue => do
      let vals ← bounds.mapM decodeUpperBound
      some (.solvable, some true, vals, [], [])
  | .lFalse => some (.unsolvable, some false, [], [], [])
  | .lUndetermined reason =>
      if reason = "timeout" ∨ reason = "canceled" then
        some (.timeout, none, [], [], [])
      else if reason = "unknown" then some (.failure, none, [], [], [])
      else none

/-! ## Theorems -/

/-- C1: code-bug demonstration.  For an `Add` instruction whose result
expression is symbolic (not a statically known nonzero constant),
`propagateError` writes the raw result expression itself into
`valueErrorMap` and returns it; the weighted sum
`lhsError·lhsOperand + rhsError·rhsOperand` the claim describes (and
which the code computes into `resultError`, then discards on this
path) is a different expression. -/
theorem propagateError_add_symbolic_result_stores_result_itself :
    propagateError ⟨9, .add, [1, 2]⟩ (.read ⟨0, "r"⟩ (.const 0 8))
        [.const 5 32, .const 7 32] emptyState =
      some (.read ⟨0, "r"⟩ (.const 0 8),
        setValueError
          (setValueError (setValueError emptyState 1 (.const 0 8)) 2
            (.const 0 8))
          9 (.read ⟨0, "r"⟩ (.const 0 8))) ∧
    Expr.read ⟨0, "r"⟩ (.const 0 8) ≠
      weightedErrorSum (.const 0 8) (.const 0 8) (.const 5 32)
        (.const 7 32) := by
  exact ⟨rfl, by decide⟩

/-- C2 counterexample: at the concrete query with constraint list
`[const 0 1]`, goal expression `const 1 1` and one requested array,
the optimizer session asserts only the constraint — the negation of
the goal expression is not among its assertions. -/
theorem internalRunOptimize_counterexample :
    (internalRunOptimizeSession [Expr.const 0 1] (Expr.const 1 1)
        [⟨0, "err"⟩]).assertions = [ZAst.ofExpr (Expr.const 0 1)] ∧
    ZAst.notOf (Expr.const 1 1) ∉
      (internalRunOptimizeSession [Expr.const 0 1] (Expr.const 1 1)
        [⟨0, "err"⟩]).assertions := by
  exact ⟨rfl, by decide⟩

/-- C2 (amended): `computeOptimalValues` asserts exactly the query's
constraints into the optimizer session and adds one maximize objective
per requested array (that array's value as a real) before the check;
the query's goal expression is never asserted, negated or otherwise. -/
theorem internalRunOptimize_assertions (constraints : List Expr)
    (queryExpr : Expr) (objects : List Arr) :
    (internalRunOptimizeSession constraints queryExpr objects).assertions =
        constraints.map ZAst.ofExpr ∧
    (internalRunOptimizeSession constraints queryExpr objects).objectives =
        objects.map (fun a => ZAst.realVar a.name) ∧
    ZAst.notOf queryExpr ∉
      (internalRunOptimizeSession constraints queryExpr objects).assertions := by
  refine ⟨rfl, rfl, ?_⟩
  intro hmem
  simp [internalRunOptimizeSession] at hmem

/-- C3: code-bug demonstration.  For the exact integer numeral `42`,
the numeral decoding of `handleSolverResponse` produces the raw
little-endian machine-integer bytes `[42, 0, …, 0]`, which differ from
the little-endian IEEE-754 encoding of the double `42.0`
(`[0, 0, 0, 0, 0, 0, 0x45, 0x40]`); only the rational path (e.g. the
numeral `1/3`) produces the little-endian double encoding. -/
theorem decodeNumeral_integer_path_raw_bytes :
    decodeNumeral (.int 42) = some [42, 0, 0, 0, 0, 0, 0, 0] ∧
    bytesLE8 (ratToDoubleBits 42 1) = [0, 0, 0, 0, 0, 0, 69, 64] ∧
    decodeNumeral (.int 42) ≠ some (bytesLE8 (ratToDoubleBits 42 1)) ∧
    decodeNumeral (.rat 1 3) = some (bytesLE8 (ratToDoubleBits 1 3)) ∧
    ratToDoubleBits 1 3 = 0x3FD5555555555555 ∧
    handleSolverResponse .lTrue [.int 42] =
      some (.solvable, some true, [[42, 0, 0, 0, 0, 0, 0, 0]]) := by
  refine ⟨by decide, by decide, by decide, rfl, by decide, rfl⟩

/-- C4 counterexample: for a `Sub` instruction whose result is symbolic
(not a constant at all), `propagateError` nevertheless stores and
returns a `UDiv` of the weighted error sum by the result — a division
by a possibly-zero symbolic value, contradicting the claim that no
division by the result is performed in that case. -/
theorem propagateError_sub_divides_by_symbolic_result :
    propagateError ⟨3, .sub, [1, 2]⟩ (.read ⟨0, "r"⟩ (.const 0 8))
        [.const 5 32, .const 7 32] emptyState =
      some
        (.udiv
          (weightedErrorSum (.const 0 8) (.const 0 8) (.const 5 32)
            (.const 7 32))
          (.read ⟨0, "r"⟩ (.const 0 8)),
        setValueError
          (setValueError (setValueError emptyState 1 (.const 0 8)) 2
            (.const 0 8))
          3
          (.udiv
            (weightedErrorSum (.const 0 8) (.const 0 8) (.const 5 32)
              (.const 7 32))
            (.read ⟨0, "r"⟩ (.const 0 8)))) := by
  rfl

/-- C4 (amended): only the `Add` case guards the normalization — it
divides the weighted error sum by the result exactly when the result
is a statically known nonzero constant and performs no division
otherwise (storing the result variable as it stands); the `Sub` case
always divides the weighted sum by the result, even when the result is
symbolic or a zero constant. -/
theorem propagateError_add_sub_normalization (iid lOp rOp : Nat)
    (arg0 arg1 lError rError result : Expr) (st st1 st2 : SymErrState)
    (h0 : getError arg0 (some lOp) st = some (lError, st1))
    (h1 : getError arg1 (some rOp) st1 = some (rError, st2)) :
    (result.isNonzeroConst = false →
      propagateError ⟨iid, .add, [lOp, rOp]⟩ result [arg0, arg1] st =
        some (result, setValueError st2 iid result)) ∧
    (result.isNonzeroConst = true →
      propagateError ⟨iid, .add, [lOp, rOp]⟩ result [arg0, arg1] st =
        some (.udiv (weightedErrorSum lError rError arg0 arg1) result,
          setValueError st2 iid
            (.udiv (weightedErrorSum lError rError arg0 arg1) result))) ∧
    propagateError ⟨iid, .sub, [lOp, rOp]⟩ result [arg0, arg1] st =
      some (.udiv (weightedErrorSum lError rError arg0 arg1) result,
        setValueError st2 iid
          (.udiv (weightedErrorSum lError rError arg0 arg1) result)) := by
  refine ⟨fun hr => ?_, fun hr => ?_, ?_⟩ <;>
    simp [propagateError, h0, h1, weightedErrorSum, *]

/-- Witness for C4 (amended): the `Sub` case at a concrete nonzero
constant result, instantiating the hypotheses of
`propagateError_add_sub_normalization` at the empty state. -/
theorem propagateError_add_sub_normalization_witness :
    propagateError ⟨3, .sub, [1, 2]⟩ (Expr.const 2 32)
        [Expr.const 5 32, Expr.const 7 32] emptyState =
      some
        (.udiv
          (weightedErrorSum (.const 0 8) (.const 0 8) (.const 5 32)
            (.const 7 32))
          (Expr.const 2 32),
        setValueError
          (setValueError (setValueError emptyState 1 (.const 0 8)) 2
            (.const 0 8))
          3
          (.udiv
            (weightedErrorSum (.const 0 8) (.const 0 8) (.const 5 32)
              (.const 7 32))
            (Expr.const 2 32))) := by
  exact (propagateError_add_sub_normalization 3 1 2 (.const 5 32)
    (.const 7 32) (.const 0 8) (.const 0 8) (.const 2 32) emptyState
    (setValueError emptyState 1 (.const 0 8))
    (setValueError (setValueError emptyState 1 (.const 0 8)) 2 (.const 0 8))
    rfl rfl).2.2

/-- C5: code-bug demonstration.  On a satisfiable optimization check
with one requested array, `handleOptimizeResponse` decodes the bound
value but appends no entry at all to the `infinity` and `epsilon`
output vectors (their contents stay empty, not one boolean per
requested array). -/
theorem handleOptimizeResponse_empty_infinity_epsilon :
    handleOptimizeResponse .lTrue [⟨.int 0, .int 1, .int 0⟩] =
      some (.solvable, some true, [0x3FF0000000000000],
        ([] : List Bool), ([] : List Bool)) ∧
    ([] : List Bool).length ≠
      [(⟨.int 0, .int 1, .int 0⟩ : UpperBoundTriple)].length := by
  exact ⟨by decide, by decide⟩

/-- C6 counterexample: `executeStore` called with a symbolic
(non-constant) address and a null error expression returns silently as
a no-op — it does not abort, because the null-error early return comes
before the address is examined. -/
theorem executeStore_symbolic_address_null_error_no_abort :
    (Expr.read ⟨0, "a"⟩ (.const 0 8)).isConst = false ∧
    executeStore (.read ⟨0, "a"⟩ (.const 0 8)) none emptyState =
      some emptyState := by
  exact ⟨rfl, rfl⟩

/-- C6 (amended): `executeLoad` at a non-constant address always hits
the fatal assertion, and `executeStore` at a non-constant address hits
it whenever the error argument is non-null; with a null error,
`executeStore` returns as a no-op before the address is examined. -/
theorem executeStore_executeLoad_symbolic_address (address : Expr)
    (h : address.isConst = false) (e : Expr) (st : SymErrState)
    (value : Nat) :
    executeStore address (some e) st = none ∧
    executeLoad value address st = none ∧
    executeStore address none st = some st := by
  refine ⟨?_, ?_, rfl⟩ <;> cases address <;>
    simp_all [executeStore, executeLoad, Expr.isConst]

/-- Witness for C6 (amended): a concrete symbolic address. -/
theorem executeStore_executeLoad_symbolic_address_witness :
    executeStore (.read ⟨0, "a"⟩ (.const 0 8)) (some (.const 1 8))
        emptyState = none ∧
    executeLoad 7 (.read ⟨0, "a"⟩ (.const 0 8)) emptyState = none ∧
    executeStore (.read ⟨0, "a"⟩ (.const 0 8)) none emptyState =
      some emptyState := by
  exact executeStore_executeLoad_symbolic_address
    (.read ⟨0, "a"⟩ (.const 0 8)) rfl (.const 1 8) emptyState 7

/-- C7: both response handlers map the backend outcome identically:
`SAT` gives `solvable` with `hasSolution = true` (and the decoded
values), `UNSAT` gives `unsolvable` with `hasSolution = false` and no
decoded values, an undefined result with reason `"timeout"` or
`"canceled"` gives `timeout`, reason `"unknown"` gives `failure`, and
any other reason aborts the process. -/
theorem responseHandlers_status_mapping (modelVals : List Numeral)
    (vals : List (List Nat)) (bounds : List UpperBoundTriple)
    (optVals : List Nat) (reason : String)
    (hdec : modelVals.mapM decodeNumeral = some vals)
    (hopt : bounds.mapM decodeUpperBound = some optVals)
    (hr1 : reason ≠ "timeout") (hr2 : reason ≠ "canceled")
    (hr3 : reason ≠ "unknown") :
    handleSolverResponse .lTrue modelVals =
      some (.solvable, some true, vals) ∧
    handleSolverResponse .lFalse modelVals =
      some (.unsolvable, some false, []) ∧
    handleSolverResponse (.lUndetermined "timeout") modelVals =
      some (.timeout, none, []) ∧
    handleSolverResponse (.lUndetermined "canceled") modelVals =
      some (.timeout, none, []) ∧
    handleSolverResponse (.lUndetermined "unknown") modelVals =
      some (.failure, none, []) ∧
    handleSolverResponse (.lUndetermined reason) modelVals = none ∧
    handleOptimizeResponse .lTrue bounds =
      some (.solvable, some true, optVals, [], []) ∧
    handleOptimizeResponse .lFalse bounds =
      some (.unsolvable, some false, [], [], []) ∧
    handleOptimizeResponse (.lUndetermined "timeout") bounds =
      some (.timeout, none, [], [], []) ∧
    handleOptimizeResponse (.lUndetermined "canceled") bounds =
      some (.timeout, none, [], [], []) ∧
    handleOptimizeResponse (.lUndetermined "unknown") bounds =
      some (.failure, none, [], [], []) ∧
    handleOptimizeResponse (.lUndetermined reason) bounds = none := by
  have hsat : handleSolverResponse .lTrue modelVals =
      some (.solvable, some true, vals) := by
    simp only [handleSolverResponse]
    rw [hdec]
    rfl
  have hoptSat : handleOptimizeResponse .lTrue bounds =
      some (.solvable, some true, optVals, [], []) := by
    simp only [handleOptimizeResponse]
    rw [hopt]
    rfl
  refine ⟨hsat, rfl, ?_, ?_, ?_, ?_, hoptSat, rfl, ?_, ?_, ?_, ?_⟩ <;>
    simp [handleSolverResponse, handleOptimizeResponse, hr1, hr2, hr3]

/-- Witness for C7: the integer numeral `42` as the single model value,
the bound `1` as the single objective, and the unexpected reason
string `"wat"`. -/
theorem responseHandlers_status_mapping_witness :
    handleSolverResponse .lTrue [.int 42] =
      some (.solvable, some true, [[42, 0, 0, 0, 0, 0, 0, 0]]) ∧
    handleSolverResponse .lFalse [.int 42] =
      some (.unsolvable, some false, []) ∧
    handleSolverResponse (.lUndetermined "timeout") [.int 42] =
      some (.timeout, none, []) ∧
    handleSolverResponse (.lUndetermined "canceled") [.int 42] =
      some (.timeout, none, []) ∧
    handleSolverResponse (.lUndetermined "unknown") [.int 42] =
      some (.failure, none, []) ∧
    handleSolverResponse (.lUndetermined "wat") [.int 42] = none ∧
    handleOptimizeResponse .lTrue [⟨.int 0, .int 1, .int 0⟩] =
      some (.solvable, some true, [0x3FF0000000000000], [], []) ∧
    handleOptimizeResponse .lFalse [⟨.int 0, .int 1, .int 0⟩] =
      some (.unsolvable, some false, [], [], []) ∧
    handleOptimizeResponse (.lUndetermined "timeout") [⟨.int 0, .int 1, .int 0⟩] =
      some (.timeout, none, [], [], []) ∧
    handleOptimizeResponse (.lUndetermined "canceled") [⟨.int 0, .int 1, .int 0⟩] =
      some (.timeout, none, [], [], []) ∧
    handleOptimizeResponse (.lUndetermined "unknown") [⟨.int 0, .int 1, .int 0⟩] =
      some (.failure, none, [], [], []) ∧
    handleOptimizeResponse (.lUndetermined "wat") [⟨.int 0, .int 1, .int 0⟩] =
      none := by
  exact responseHandlers_status_mapping [.int 42]
    [[42, 0, 0, 0, 0, 0, 0, 0]] [⟨.int 0, .int 1, .int 0⟩]
    [0x3FF0000000000000] "wat" (by decide) (by decide) (by decide)
    (by decide) (by decide)

/-- C8: storing an error at a concrete address and loading from the
same concrete address (at any width) returns exactly the stored
expression; loading from a concrete address that was never stored
returns the `Int8` zero constant.  Both loads record the result in
`valueErrorMap`. -/
theorem executeStore_executeLoad_roundtrip (aval w w2 value : Nat)
    (e : Expr) (st st' : SymErrState)
    (hstore : executeStore (.const aval w) (some e) st = some st')
    (hmiss : assocLookup st.storedError aval = none) :
    executeLoad value (.const aval w2) st' =
      some (e, setValueError st' value e) ∧
    executeLoad value (.const aval w) st =
      some (.const 0 8, setValueError st value (.const 0 8)) := by
  have hst : st' = { st with storedError := (aval, e) :: st.storedError } := by
    simpa [executeStore] using hstore.symm
  subst hst
  constructor
  · simp [executeLoad, assocLookup]
  · simp [executeLoad, hmiss]

/-- Witness for C8: store the constant error `3` at address `100` in
the empty state and load it back; load address `100` of the empty
state directly for the never-stored case. -/
theorem executeStore_executeLoad_roundtrip_witness :
    executeLoad 7 (.const 100 64)
        { emptyState with storedError := [(100, Expr.const 3 8)] } =
      some (.const 3 8,
        setValueError
          { emptyState with storedError := [(100, Expr.const 3 8)] } 7
          (.const 3 8)) ∧
    executeLoad 7 (.const 100 64) emptyState =
      some (.const 0 8, setValueError emptyState 7 (.const 0 8)) := by
  exact executeStore_executeLoad_roundtrip 100 64 64 7 (.const 3 8)
    emptyState { emptyState with storedError := [(100, Expr.const 3 8)] }
    rfl rfl

/-- The code's width adjustment (`ZExtExpr::create` whenever the widths
differ) agrees with the spec's rule (zero-extend exactly when the error
is narrower) as long as the error is not wider than the operand. -/
theorem widthAdjust_eq_zextIfNarrower (e : Expr) (w : Nat)
    (h : e.width ≤ w) : widthAdjust e w = zextIfNarrower e w := by
  unfold widthAdjust zextIfNarrower
  by_cases hq : e.width = w
  · simp [hq]
  · have hlt : e.width < w := lt_of_le_of_ne h hq
    simp [hq, hlt]

/-- C9: for `Mul`, `UDiv` and `SDiv` instructions, `propagateError`
stores into `valueErrorMap` and returns the plain sum of the two
operands' derived errors, each zero-extended to its operand's bit
width when narrower — with no normalization and no multiplication by
the operands (the result expression plays no role). -/
theorem propagateError_mul_div_error_sum (op : Opcode)
    (hop : op = .mul ∨ op = .udiv ∨ op = .sdiv)
    (iid lOp rOp : Nat) (arg0 arg1 lError rError result : Expr)
    (st st1 st2 : SymErrState)
    (h0 : getError arg0 (some lOp) st = some (lError, st1))
    (h1 : getError arg1 (some rOp) st1 = some (rError, st2))
    (hw0 : lError.width ≤ arg0.width) (hw1 : rError.width ≤ arg1.width) :
    propagateError ⟨iid, op, [lOp, rOp]⟩ result [arg0, arg1] st =
      some
        (.add (zextIfNarrower lError arg0.width)
          (zextIfNarrower rError arg1.width),
        setValueError st2 iid
          (.add (zextIfNarrower lError arg0.width)
            (zextIfNarrower rError arg1.width))) := by
  have e0 := widthAdjust_eq_zextIfNarrower lError arg0.width hw0
  have e1 := widthAdjust_eq_zextIfNarrower rError arg1.width hw1
  rcases hop with h | h | h <;> subst h <;>
    simp [propagateError, h0, h1, e0, e1]

/-- Witness for C9: a `Mul` instruction over two 32-bit constant
operands in the empty state; the fresh `Int8` errors are zero-extended
to width 32. -/
theorem propagateError_mul_div_error_sum_witness :
    propagateError ⟨3, .mul, [1, 2]⟩ (Expr.const 35 32)
        [Expr.const 5 32, Expr.const 7 32] emptyState =
      some
        (.add (zextIfNarrower (.const 0 8) 32)
          (zextIfNarrower (.const 0 8) 32),
        setValueError
          (setValueError (setValueError emptyState 1 (.const 0 8)) 2
            (.const 0 8))
          3
          (.add (zextIfNarrower (.const 0 8) 32)
            (zextIfNarrower (.const 0 8) 32))) := by
  exact propagateError_mul_div_error_sum .mul (Or.inl rfl) 3 1 2
    (.const 5 32) (.const 7 32) (.const 0 8) (.const 0 8) (.const 35 32)
    emptyState (setValueError emptyState 1 (.const 0 8))
    (setValueError (setValueError emptyState 1 (.const 0 8)) 2 (.const 0 8))
    rfl rfl (by decide) (by decide)

/-- C10: on the first unresolved reference (a `Read`, or a `Concat`
whose left kid reads the array) to an array with no
`arrayErrorArrayMap` association, `getError` creates an error array
named `"_unspecified_error_" ++ name` and records the association;
any subsequent unresolved reference to the same array — through a
`Read` or a `Concat` — returns a read of that same error array and
leaves the state unchanged (no duplicate error array is created). -/
theorem getError_unspecified_error_array (arr : Arr)
    (index index2 right : Expr) (st : SymErrState)
    (hmiss : assocLookup st.arrayErrorArrayMap arr = none) :
    (unspecifiedErrorArray arr st).name =
        "_unspecified_error_" ++ arr.name ∧
    getError (.read arr index) none st =
      some (.read (unspecifiedErrorArray arr st) (.const 0 8),
        recordErrorArray arr st) ∧
    getError (.read arr index2) none (recordErrorArray arr st) =
      some (.read (unspecifiedErrorArray arr st) (.const 0 8),
        recordErrorArray arr st) ∧
    getError (.concat (.read arr index2) right) none
        (recordErrorArray arr st) =
      some (.read (unspecifiedErrorArray arr st) (.const 0 8),
        recordErrorArray arr st) := by
  refine ⟨rfl, ?_, ?_, ?_⟩ <;>
    simp [getError, getErrorCore, resolveErrorArray, hmiss, assocLookup,
      recordErrorArray, unspecifiedErrorArray]

/-- Witness for C10: a fresh array named `"x"` in the empty state; the
created error array is named `"_unspecified_error_x"`. -/
theorem getError_unspecified_error_array_witness :
    (unspecifiedErrorArray ⟨5, "x"⟩ emptyState).name =
        "_unspecified_error_x" ∧
    getError (.read ⟨5, "x"⟩ (.const 0 8)) none emptyState =
      some (.read (unspecifiedErrorArray ⟨5, "x"⟩ emptyState) (.const 0 8),
        recordErrorArray ⟨5, "x"⟩ emptyState) ∧
    getError (.read ⟨5, "x"⟩ (.const 1 8)) none
        (recordErrorArray ⟨5, "x"⟩ emptyState) =
      some (.read (unspecifiedErrorArray ⟨5, "x"⟩ emptyState) (.const 0 8),
        recordErrorArray ⟨5, "x"⟩ emptyState) ∧
    getError (.concat (.read ⟨5, "x"⟩ (.const 1 8)) (.const 0 8)) none
        (recordErrorArray ⟨5, "x"⟩ emptyState) =
      some (.read (unspecifiedErrorArray ⟨5, "x"⟩ emptyState) (.const 0 8),
        recordErrorArray ⟨5, "x"⟩ emptyState) := by
  exact getError_unspecified_error_array ⟨5, "x"⟩ (.const 0 8) (.const 1 8)
    (.const 0 8) emptyState rfl

end KleeError
